import Mathlib

/-!
# Verification of the sliding_window trade-window engine

Shallow embedding of the tick-based sliding window (circular buffer with
dual eviction, incremental aggregates, lazy extremum recompute) and its
read-side analytics, translated from the Go sources.  Machine `float64`
values are modelled as exact rationals; transcendental library functions
(`math.Log`, `math.Log1p`, `math.Sqrt`) are passed in as function
parameters so that the control flow and field data flow of the source are
captured exactly.  `time.Time` values are modelled as integer nanosecond
timestamps; `t.After(u)` is `u < t` and `t.Add(-d)` is `t - d`.
-/

set_option maxHeartbeats 1600000

/-- Trade side tag from the Go `Side uint8` enumeration; the Go zero value
is `SideUnknown`. -/
inductive Side where
  | unknown
  | buy
  | sell
  deriving Repr, DecidableEq, Inhabited

/-- One buffered trade event, from the Go `WindowPoint` struct of the
current (tick-based) generation: timestamp, price and volume in integer
ticks (`QtyLoz` is `int64`), and the side tag.  The Go zero value has all
fields zero and side `SideUnknown`. -/
structure WindowPoint where
  ts : Int
  price : Int
  volume : Int
  side : Side
  deriving Repr, DecidableEq

instance : Inhabited WindowPoint := ⟨⟨0, 0, 0, Side.unknown⟩⟩

/-- The `EMA` struct from the Go source (field names as in the source). -/
structure EMA where
  Value : ℚ
  Alpha : ℚ
  Initialized : Bool
  deriving Repr, DecidableEq

/-- `NewEMA` from the Go source: clamps alpha into `(0, 1]`, defaulting a
non-positive alpha to `0.01`. -/
def NewEMA (alpha : ℚ) : EMA :=
  let alpha := if alpha ≤ 0 then (1 : ℚ) / 100 else alpha
  let alpha := if 1 < alpha then 1 else alpha
  { Value := 0, Alpha := alpha, Initialized := false }

/-- `EMA.Update` from the Go source: first observation seeds the value,
later observations blend with weight `Alpha`. -/
def EMA.Update (e : EMA) (x : ℚ) : EMA :=
  if e.Initialized then
    { e with Value := e.Alpha * x + (1 - e.Alpha) * e.Value }
  else
    { e with Value := x, Initialized := true }

/-- `EMA.Get` from the Go source: the smoothed value, or not-ok before the
first observation. -/
def EMA.Get (e : EMA) : Option ℚ :=
  if e.Initialized then some e.Value else none

/-- Go `math.Round`: round half away from zero. -/
def goRound (x : ℚ) : Int :=
  if 0 ≤ x then ⌊x + 1 / 2⌋ else -⌊-x + 1 / 2⌋

/-- `NewQtyLoz` from `qtyLoz.go`: scale, bias by `1e-9` against binary
floating error, and round to the nearest tick. -/
def NewQtyLoz (n : ℚ) (scale : Int) : Int :=
  goRound (n * (scale : ℚ) + 1 / 1000000000)

/-- `QtyLoz.Float` from `qtyLoz.go`: ticks back to a real value. -/
def QtyLozFloat (q : Int) (scale : Int) : ℚ :=
  (q : ℚ) / (scale : ℚ)

/-- `NewQtyScaleFromDecimals` from `qtyLoz.go`: `10^decimals` with the
decimal count clamped into `[1, 18]`. -/
def NewQtyScaleFromDecimals (decimals : Int) : Int :=
  let decimals := max decimals 1
  let decimals := min decimals 18
  10 ^ decimals.toNat

/-- The mutable state of the current (tick-based) `SlidingWindow`: ring
storage `buf`/`start`/`size`, the window duration and fixed scales, and
every running aggregate the mutation path maintains.  Atomic fields
(`LatestPrice`, `HighestPrice`, `LowestPrice`, `nTrades`, `SumV`, `SumPV`,
`buyVol`, `sellVol`, `avgVolPerPoint`, `volPerSecond`) are modelled as
plain fields since all mutation happens under the single write lock. -/
structure SlidingWindow where
  duration : Int
  buf : List WindowPoint
  start : Nat
  size : Nat
  sumVolume : Int
  ema : EMA
  priceScale : Int
  volumeScale : Int
  nTrades : Int
  SumV : Int
  SumPV : Int
  buyVol : Int
  sellVol : Int
  LatestPrice : Int
  HighestPrice : Int
  LowestPrice : Int
  hiLoDirty : Bool
  avgVolPerPoint : Int
  volPerSecond : Int
  deriving Repr, DecidableEq

/-- Modelled from the spec: the struct literal/constructor of the current
tick-based `SlidingWindow` is not among the sources (only the earlier
float-based `NewSlidingWindow` is); spec §3 states every running aggregate
is created zero-valued at construction, §6 fixes duration, capacity, EMA
alpha and the price/volume scales at construction, and the ring storage is
zero-valued as in `make([]WindowPoint, capacity)`. -/
def NewSlidingWindow (duration : Int) (capacity : Nat) (emaAlpha : ℚ)
    (priceScale volumeScale : Int) : SlidingWindow :=
  { duration := duration
    buf := List.replicate capacity default
    start := 0
    size := 0
    sumVolume := 0
    ema := NewEMA emaAlpha
    priceScale := priceScale
    volumeScale := volumeScale
    nTrades := 0
    SumV := 0
    SumPV := 0
    buyVol := 0
    sellVol := 0
    LatestPrice := 0
    HighestPrice := 0
    LowestPrice := 0
    hiLoDirty := false
    avgVolPerPoint := 0
    volPerSecond := 0 }

/-- `atUnlocked` from the Go source: the `i`-th logical element of the
ring, `buf[(start+i) % len(buf)]`. -/
def atUnlocked (w : SlidingWindow) (i : Nat) : WindowPoint :=
  w.buf.getD ((w.start + i) % w.buf.length) default

/-- `lastUnlocked` from the Go source. -/
def lastUnlocked (w : SlidingWindow) : WindowPoint :=
  atUnlocked w (w.size - 1)

/-- The logical contents of the ring, oldest first: `atUnlocked w i` for
`i < size`.  This is the brute-force view the testable properties compare
the incremental aggregates against. -/
def contents (w : SlidingWindow) : List WindowPoint :=
  (List.range w.size).map (atUnlocked w)

/-- The tail of `applyAddPointUnlocked` (after the side switch): store the
latest price and run the two increase-only/decrease-only CAS loops for the
cached extrema.  Under the write lock each CAS succeeds first try. -/
def applyAddTail (w : SlidingWindow) (px : Int) : SlidingWindow :=
  let w := { w with LatestPrice := px }
  let w := if w.HighestPrice = 0 ∨ w.HighestPrice < px
    then { w with HighestPrice := px } else w
  if w.LowestPrice = 0 ∨ px < w.LowestPrice
    then { w with LowestPrice := px } else w

/-- `applyAddPointUnlocked` from the Go source: fold one event into the
running aggregates.  Note the source's `default: return` inside the side
switch, which skips the latest/high/low update for `SideUnknown`. -/
def applyAddPointUnlocked (w : SlidingWindow) (pt : WindowPoint) : SlidingWindow :=
  let w := { w with sumVolume := w.sumVolume + pt.volume }
  let w := if 0 < pt.volume
    then { w with ema := w.ema.Update ((pt.volume : ℚ) / (w.volumeScale : ℚ)) }
    else w
  let px := pt.price
  let v : Int := if pt.volume < 0 then 0 else pt.volume
  let w := { w with nTrades := w.nTrades + 1, SumV := w.SumV + v, SumPV := w.SumPV + px * v }
  match pt.side with
  | Side.buy => applyAddTail { w with buyVol := w.buyVol + v } px
  | Side.sell => applyAddTail { w with sellVol := w.sellVol + v } px
  | Side.unknown => w

/-- The tail of `applyRemovePointUnlocked`: mark the extremum cache dirty
when the evicted price equals a cached extremum. -/
def applyRemoveTail (w : SlidingWindow) (px : Int) : SlidingWindow :=
  if px = w.HighestPrice ∨ px = w.LowestPrice then { w with hiLoDirty := true } else w

/-- `applyRemovePointUnlocked` from the Go source: fold one event out of
the running aggregates.  The EMA is deliberately not touched; the
source's `default: return` in the side switch also skips the dirty-flag
check for `SideUnknown` events. -/
def applyRemovePointUnlocked (w : SlidingWindow) (pt : WindowPoint) : SlidingWindow :=
  let w := { w with sumVolume := w.sumVolume - pt.volume }
  let px := pt.price
  let v : Int := if pt.volume < 0 then 0 else pt.volume
  let w := { w with nTrades := w.nTrades - 1, SumV := w.SumV - v, SumPV := w.SumPV - px * v }
  match pt.side with
  | Side.buy => applyRemoveTail { w with buyVol := w.buyVol - v } px
  | Side.sell => applyRemoveTail { w with sellVol := w.sellVol - v } px
  | Side.unknown => w

/-- The body of the insertion loop in `add` (part_000): skip an event not
strictly inside the time window, seat into an empty ring, append below
capacity, or evict the oldest slot and overwrite it at capacity. -/
def addLoopBody (threshold : Int) (w : SlidingWindow) (pt : WindowPoint) : SlidingWindow :=
  if ¬ threshold < pt.ts then w
  else if w.size = 0 then
    applyAddPointUnlocked { w with buf := w.buf.set 0 pt, start := 0, size := 1 } pt
  else if w.size < w.buf.length then
    let idx := (w.start + w.size) % w.buf.length
    applyAddPointUnlocked { w with buf := w.buf.set idx pt, size := w.size + 1 } pt
  else
    let idx := w.start
    let old := w.buf.getD idx default
    let w := applyRemovePointUnlocked w old
    applyAddPointUnlocked
      { w with buf := w.buf.set idx pt, start := (w.start + 1) % w.buf.length } pt

/-- The `for` loop of `trimExpiredUnlocked`, fuelled by the entry size:
while the ring is nonempty and the head is not strictly after the
threshold, fold the head out and advance the start offset.  The fuel
equals the size on entry and tracks it exactly, so the fuelled recursion
computes the same result as the source's `while` loop. -/
def trimExpiredLoop : Nat → Int → SlidingWindow → SlidingWindow
  | 0, _, w => w
  | Nat.succ n, threshold, w =>
    if w.size = 0 then w
    else
      let head := w.buf.getD w.start default
      if threshold < head.ts then w
      else
        let w := applyRemovePointUnlocked w head
        trimExpiredLoop n threshold
          { w with start := (w.start + 1) % w.buf.length, size := w.size - 1 }

/-- `trimExpiredUnlocked` from the Go source: drop every expired head,
then either reset latest/high/low (empty window) or refresh the latest
price from the new last element. -/
def trimExpiredUnlocked (w : SlidingWindow) (threshold : Int) : SlidingWindow :=
  let w := trimExpiredLoop w.size threshold w
  if w.size = 0 then
    { w with LatestPrice := 0, hiLoDirty := false, HighestPrice := 0, LowestPrice := 0 }
  else
    { w with
      LatestPrice := (w.buf.getD ((w.start + w.size - 1) % w.buf.length) default).price }

/-- `recomputeHighLowIfDirtyUnlocked` from the Go source: if the dirty
flag is set, rescan the ring contents for the true extrema (or reset them
to zero on an empty window) and clear the flag. -/
def recomputeHighLowIfDirtyUnlocked (w : SlidingWindow) : SlidingWindow :=
  if ¬ w.hiLoDirty then w
  else if w.size = 0 then
    { w with HighestPrice := 0, LowestPrice := 0, hiLoDirty := false }
  else
    let first := w.buf.getD (w.start % w.buf.length) default
    let rest := ((contents w).drop 1).map (·.price)
    let hi := rest.foldl (fun h p => if h < p then p else h) first.price
    let lo := rest.foldl (fun l p => if p < l then p else l) first.price
    { w with HighestPrice := hi, LowestPrice := lo, hiLoDirty := false }

/-- Truncation toward zero of a rational, the semantics of Go's
`int64(x)` conversion from `float64`. -/
def ratTrunc (q : ℚ) : Int :=
  Int.tdiv q.num (q.den : Int)

/-- `refreshVolumeCachesUnlocked` from the Go source: recompute the
average-volume-per-point and volume-per-second caches from the
post-eviction state (Go integer division truncates toward zero). -/
def refreshVolumeCachesUnlocked (w : SlidingWindow) : SlidingWindow :=
  if w.size = 0 then
    { w with avgVolPerPoint := 0, volPerSecond := 0 }
  else
    let avgTicks := Int.tdiv w.sumVolume (w.size : Int)
    let w := { w with avgVolPerPoint := avgTicks }
    if w.size < 2 then
      { w with volPerSecond := 0 }
    else
      let oldest := atUnlocked w 0
      let newest := lastUnlocked w
      let sec : ℚ := ((newest.ts - oldest.ts : Int) : ℚ) / 1000000000
      if sec ≤ 0 then
        { w with volPerSecond := 0 }
      else
        { w with volPerSecond := ratTrunc ((w.sumVolume : ℚ) / sec) }

/-- `add` from part_000: the lock-free batch insertion.  An empty batch is
a no-op; otherwise the eviction threshold is derived from the batch's
last event, each event is inserted by `addLoopBody`, expired heads are
trimmed, a dirty extremum cache is recomputed, and the volume caches are
refreshed. -/
def SlidingWindow.add (w : SlidingWindow) (pts : List WindowPoint) : SlidingWindow :=
  if pts.isEmpty then w
  else
    let lastTs := (pts.getLastD default).ts
    let threshold := lastTs - w.duration
    let w := pts.foldl (addLoopBody threshold) w
    let w := trimExpiredUnlocked w threshold
    let w := recomputeHighLowIfDirtyUnlocked w
    refreshVolumeCachesUnlocked w

/-- `Add` from part_000 (the locked wrapper over `add`). -/
def SlidingWindow.Add (w : SlidingWindow) (pts : List WindowPoint) : SlidingWindow :=
  w.add pts

/-- `AddWindowPoint` from part_000: build the event from raw side, price,
size and timestamp using the window's fixed scales, then insert it. -/
def SlidingWindow.AddWindowPoint (w : SlidingWindow) (side : Side)
    (price size : ℚ) (ts : Int) : SlidingWindow :=
  w.add [{ ts := ts
           price := NewQtyLoz price w.priceScale
           volume := NewQtyLoz size w.volumeScale
           side := side }]

/-- `structuralReturn` from `common.go`: the window-span price return
`(newest - oldest)/oldest` over real (descaled) prices; not-ok on an empty
window, an empty ring allocation, or a zero oldest tick price. -/
def structuralReturn (w : SlidingWindow) : Option ℚ :=
  if w.size = 0 ∨ w.buf.length = 0 then none
  else
    let old := atUnlocked w 0
    let newest := lastUnlocked w
    if old.price = 0 then none
    else
      some ((QtyLozFloat newest.price w.priceScale - QtyLozFloat old.price w.priceScale) /
        QtyLozFloat old.price w.priceScale)

/-- `volumeFactor` from `volumeFactor.go`: current average volume per
point divided by the EMA baseline; not-ok when the EMA is uninitialized or
non-positive, the window is empty, the summed tick volume is non-positive,
or the resulting factor is non-positive (the source's NaN/Inf guards are
unrepresentable over exact rationals). -/
def volumeFactor (w : SlidingWindow) : Option ℚ :=
  match w.ema.Get with
  | none => none
  | some baselineVol =>
    if baselineVol ≤ 0 then none
    else if w.size = 0 then none
    else
      let sumUnits := w.sumVolume
      if sumUnits ≤ 0 then none
      else
        let avgUnitsPerPoint : ℚ := (sumUnits : ℚ) / (w.size : ℚ)
        let currAvg := avgUnitsPerPoint / (w.volumeScale : ℚ)
        if currAvg ≤ 0 then none
        else
          let vf := currAvg / baselineVol
          if vf ≤ 0 then none
          else some vf

/-- `Momentum` from `momentum.go`: `ret * log1p(vf)` when both the volume
factor and the structural return are ok, not-ok otherwise.  `math.Log1p`
is passed in as a function parameter. -/
def Momentum (log1p : ℚ → ℚ) (w : SlidingWindow) : ℚ × Bool :=
  match volumeFactor w, structuralReturn w with
  | some vf, some ret => (ret * log1p vf, true)
  | _, _ => (0, false)

/-- `DeltaVolume` from `common.go`: buy minus sell volume, descaled. -/
def DeltaVolume (w : SlidingWindow) : ℚ :=
  (w.buyVol : ℚ) / (w.volumeScale : ℚ) - (w.sellVol : ℚ) / (w.volumeScale : ℚ)

/-- `Imbalance` from `common.go`: `(buy - sell)/(buy + sell)` over the
descaled side volumes, and `0` when the denominator is not positive. -/
def Imbalance (w : SlidingWindow) : ℚ :=
  let bv := (w.buyVol : ℚ) / (w.volumeScale : ℚ)
  let sv := (w.sellVol : ℚ) / (w.volumeScale : ℚ)
  let den := bv + sv
  if den ≤ 0 then 0 else (bv - sv) / den

/-- The accumulation loop of `RealizedVol` over the prices after the
first: a non-positive current price contributes no term but still
replaces `prev`; a positive one adds `log(cur/prev)^2` and replaces
`prev`. -/
def rvLoop (log : ℚ → ℚ) : List ℚ → ℚ → ℚ → ℚ
  | [], _, sumsq => sumsq
  | cur :: rest, prev, sumsq =>
    if cur ≤ 0 then rvLoop log rest cur sumsq
    else rvLoop log rest cur (sumsq + log (cur / prev) * log (cur / prev))

/-- The real (descaled) prices of the buffered events, oldest first. -/
def floatPrices (w : SlidingWindow) : List ℚ :=
  (contents w).map (fun pt => QtyLozFloat pt.price w.priceScale)

/-- `RealizedVol` from `common.go`: `sqrt(sum(log(p_i/p_prev)^2))` over
the snapshot; not-ok when the window has fewer than 2 points or the
oldest price is not positive.  `math.Log` and `math.Sqrt` are passed in
as function parameters. -/
def RealizedVol (log sqrt : ℚ → ℚ) (w : SlidingWindow) : ℚ × Bool :=
  if w.size < 2 then (0, false)
  else
    let prev := QtyLozFloat (atUnlocked w 0).price w.priceScale
    if prev ≤ 0 then (0, false)
    else (sqrt (rvLoop log ((floatPrices w).drop 1) prev 0), true)

/-- `WindowStats` from `equilibriumZone.go` (the fields `collectStats`
fills; despite the `Ticks` names the source stores descaled floats). -/
structure WindowStats where
  HighTicks : ℚ
  LowTicks : ℚ
  NewestTicks : ℚ
  OldestTicks : ℚ
  SumPV : ℚ
  SumV : ℚ
  Prices : List ℚ
  deriving Repr, DecidableEq

/-- `collectStats` from `equilibriumZone.go`: not-ok below 2 points (the
`len(prices) < size` guard never fires since the pooled buffer is
acquired with length `size`); otherwise one pass over the ring filling
the price buffer and accumulating high/low and the price-volume sums. -/
def collectStats (w : SlidingWindow) : Option WindowStats :=
  if w.size < 2 then none
  else
    let first := atUnlocked w 0
    let newest := lastUnlocked w
    let pxs := floatPrices w
    let firstPx := QtyLozFloat first.price w.priceScale
    let hi := pxs.foldl (fun h p => if h < p then p else h) firstPx
    let lo := pxs.foldl (fun l p => if p < l then p else l) firstPx
    let sumPV := ((contents w).map
      (fun pt => QtyLozFloat pt.price w.priceScale * QtyLozFloat pt.volume w.volumeScale)).sum
    let sumV := ((contents w).map (fun pt => QtyLozFloat pt.volume w.volumeScale)).sum
    some { HighTicks := hi
           LowTicks := lo
           NewestTicks := QtyLozFloat newest.price w.priceScale
           OldestTicks := firstPx
           SumPV := sumPV
           SumV := sumV
           Prices := pxs }

/-- `vwap` from `vwap.go`: `SumPV/SumV`, not-ok when `SumV ≤ 0`. -/
def vwap (stats : WindowStats) : ℚ × Bool :=
  if stats.SumV ≤ 0 then (0, false) else (stats.SumPV / stats.SumV, true)

/-- The `Snapshot` result record from `snapshot.go`; fields the source
leaves out of its composite literal are the Go zero value. -/
structure SnapshotRec where
  HighestPrice : ℚ
  LowestPrice : ℚ
  VolumeWeightedAveragePrice : ℚ
  LatestPrice : ℚ
  TotalVolume : ℚ
  BuyVolume : ℚ
  SellVolume : ℚ
  DeltaVolume : ℚ
  Momentum : ℚ
  NTrades : Int
  WindowMs : Int
  Ts : Int
  DurationMs : Int
  Volatility : ℚ
  Imbalance : ℚ
  deriving Repr, DecidableEq

/-- `Snapshot` from `snapshot.go`: loads the lock-free scalars, runs
`collectStats` (returning nil — `none` — when it is not ok, i.e. below 2
points), then assembles the record from `vwap`, `DeltaVolume`,
`Imbalance` and `RealizedVol` (falling back to 0 where those are not ok).
`time.Now().UnixMilli()` is passed in as `now`. -/
def Snapshot (log sqrt : ℚ → ℚ) (now : Int) (w : SlidingWindow) : Option SnapshotRec :=
  match collectStats w with
  | none => none
  | some stat =>
    let vwapVal := (vwap stat).1
    let deltaVol := DeltaVolume w
    let imb := Imbalance w
    let rvPair := RealizedVol log sqrt w
    let rv := if rvPair.2 then rvPair.1 else 0
    some { HighestPrice := QtyLozFloat w.HighestPrice w.priceScale
           LowestPrice := QtyLozFloat w.LowestPrice w.priceScale
           VolumeWeightedAveragePrice := vwapVal
           LatestPrice := QtyLozFloat w.LatestPrice w.priceScale
           TotalVolume := QtyLozFloat w.sumVolume w.volumeScale
           BuyVolume := (w.buyVol : ℚ) / (w.volumeScale : ℚ)
           SellVolume := (w.sellVol : ℚ) / (w.volumeScale : ℚ)
           DeltaVolume := deltaVol
           Momentum := 0
           NTrades := w.nTrades
           WindowMs := Int.tdiv w.duration 1000000
           Ts := now
           DurationMs := Int.tdiv w.duration 1000000
           Volatility := rv
           Imbalance := imb }

/-- Brute-force total tick volume of a buffered event list. -/
def sumVolumeOf (l : List WindowPoint) : Int :=
  (l.map (fun pt => pt.volume)).sum

/-- The clamped volume `v` used by the fold-in/fold-out hooks:
`max(volume, 0)` in ticks. -/
def clampedVol (pt : WindowPoint) : Int :=
  if pt.volume < 0 then 0 else pt.volume

/-- Brute-force buy-side tick volume (clamped, as the hooks maintain). -/
def buyVolOf (l : List WindowPoint) : Int :=
  (l.map (fun pt => if pt.side = Side.buy then clampedVol pt else 0)).sum

/-- Brute-force sell-side tick volume (clamped). -/
def sellVolOf (l : List WindowPoint) : Int :=
  (l.map (fun pt => if pt.side = Side.sell then clampedVol pt else 0)).sum

/-- Brute-force buy-side tick volume without the clamp: the raw sum of
volumes of buffered Buy events, as the spec words it. -/
def rawBuyVolOf (l : List WindowPoint) : Int :=
  (l.map (fun pt => if pt.side = Side.buy then pt.volume else 0)).sum

/-- The structural well-formedness of a window state: the start offset is
in range, the size is bounded by the capacity, and the fixed scales are
positive. -/
def SInv (w : SlidingWindow) : Prop :=
  w.start < w.buf.length ∧ w.size ≤ w.buf.length ∧
    0 < w.priceScale ∧ 0 < w.volumeScale

/-- The aggregate-fidelity invariant: the incrementally maintained sums
agree with a brute-force recomputation over the ring contents. -/
def AggInv (w : SlidingWindow) : Prop :=
  w.sumVolume = sumVolumeOf (contents w) ∧
    w.nTrades = ((contents w).length : Int) ∧
    w.buyVol = buyVolOf (contents w) ∧
    w.sellVol = sellVolOf (contents w)

/-- The states reachable through the public mutation surface: a freshly
constructed window (positive capacity and scales) followed by any
sequence of (batch) insertions. -/
inductive Reachable : SlidingWindow → Prop where
  | base (duration : Int) (capacity : Nat) (emaAlpha : ℚ) (priceScale volumeScale : Int)
      (hcap : 0 < capacity) (hps : 0 < priceScale) (hvs : 0 < volumeScale) :
      Reachable (NewSlidingWindow duration capacity emaAlpha priceScale volumeScale)
  | step (w : SlidingWindow) (pts : List WindowPoint) :
      Reachable w → Reachable (w.add pts)

/-- A fresh example window: duration 1000 s (in ns), capacity 4, EMA alpha
0.03, price scale 100, volume scale 100. -/
def exW0 : SlidingWindow := NewSlidingWindow 1000000000000 4 (3 / 100) 100 100

/-- An Unknown-side event: price 500 ticks, volume 7 ticks. -/
def exC1pt : WindowPoint := ⟨1000, 500, 7, Side.unknown⟩

/-- The window after inserting the single Unknown-side event. -/
def exC1 : SlidingWindow := exW0.add [exC1pt]

/-- A Buy event with negative tick volume (-3). -/
def exC2pt : WindowPoint := ⟨10, 100, -3, Side.buy⟩

/-- The window after inserting the negative-volume Buy event. -/
def exC2 : SlidingWindow := exW0.add [exC2pt]

/-- A reachable mixed-side state: capacity 2, three events (Buy, Sell,
Unknown with negative volume), so one capacity eviction occurred. -/
def exAgg : SlidingWindow :=
  (NewSlidingWindow 1000000000000 2 (3 / 100) 100 100).add
    [⟨1, 10, 1, Side.buy⟩, ⟨2, 20, 2, Side.sell⟩, ⟨3, 30, -5, Side.unknown⟩]

/-- A reachable window at capacity: capacity 2 filled with two Buy events. -/
def exFull : SlidingWindow :=
  (NewSlidingWindow 1000000000000 2 (3 / 100) 100 100).add
    [⟨1, 10, 1, Side.buy⟩, ⟨2, 20, 1, Side.sell⟩]

/-- A further accepted event for the at-capacity insertion. -/
def exFullPt : WindowPoint := ⟨3, 30, 1, Side.buy⟩

/-- A sorted two-event batch for the time-eviction witness. -/
def exC4pts : List WindowPoint := [⟨1, 10, 1, Side.buy⟩, ⟨2, 20, 1, Side.sell⟩]

/-- The second event of the witness batch. -/
def exC4pt : WindowPoint := ⟨2, 20, 1, Side.sell⟩

/-- A zero-volume Buy event for the EMA frame witness. -/
def exC8pt : WindowPoint := ⟨5, 40, 0, Side.buy⟩

/-- A single-point window with positive volume: Buy, price 100 ticks,
volume 5 ticks. -/
def exC5 : SlidingWindow := exW0.add [⟨1000, 100, 5, Side.buy⟩]

/-- The per-pair terms of the realized-volatility sum as the code
actually computes them: one term for every consecutive pair of snapshot
prices whose second component is positive, with the ratio always taken
against the immediately preceding price (the loop overwrites `prev` with
the current price even when it is non-positive). -/
def specSumsq (log : ℚ → ℚ) (l : List ℚ) : ℚ :=
  ((l.zip l.tail).map
    (fun pr => if 0 < pr.2 then log (pr.2 / pr.1) * log (pr.2 / pr.1) else 0)).sum

/-- A two-point window whose first price is 0 ticks. -/
def exC6 : SlidingWindow := exW0.add [⟨1, 0, 1, Side.buy⟩, ⟨2, 100, 1, Side.buy⟩]

/-- A two-point window with positive prices. -/
def exC6b : SlidingWindow := exW0.add [⟨1, 100, 1, Side.buy⟩, ⟨2, 200, 1, Side.buy⟩]

theorem getD_set_self {α} (l : List α) (i : Nat) (a d : α) (h : i < l.length) :
    (l.set i a).getD i d = a := by
  simp [List.getD_eq_getElem?_getD, List.getElem?_set_self', List.getElem?_eq_getElem, h]

theorem getD_set_ne {α} (l : List α) (i j : Nat) (a d : α) (h : i ≠ j) :
    (l.set i a).getD j d = l.getD j d := by
  simp [List.getD_eq_getElem?_getD, List.getElem?_set_ne h]

theorem mod_add_cancel (s i n cap : Nat) (hi : i < cap) (hn : n < cap)
    (h : (s + i) % cap = (s + n) % cap) : i = n := by
  have h2 : i ≡ n [MOD cap] := Nat.ModEq.add_left_cancel' s h
  rwa [Nat.ModEq, Nat.mod_eq_of_lt hi, Nat.mod_eq_of_lt hn] at h2

theorem applyAddTail_eq (w : SlidingWindow) (px : Int) :
    applyAddTail w px =
      { w with
        LatestPrice := px
        HighestPrice := (if w.HighestPrice = 0 ∨ w.HighestPrice < px then px else w.HighestPrice)
        LowestPrice := (if w.LowestPrice = 0 ∨ px < w.LowestPrice then px else w.LowestPrice) } := by
  unfold applyAddTail
  dsimp only
  split <;> split <;> simp [*]

theorem applyAdd_buf (w : SlidingWindow) (pt : WindowPoint) :
    (applyAddPointUnlocked w pt).buf = w.buf := by
  cases hs : pt.side <;>
    simp [applyAddPointUnlocked, applyAddTail_eq, hs] <;> split <;> rfl

theorem applyAdd_start (w : SlidingWindow) (pt : WindowPoint) :
    (applyAddPointUnlocked w pt).start = w.start := by
  cases hs : pt.side <;>
    simp [applyAddPointUnlocked, applyAddTail_eq, hs] <;> split <;> rfl

theorem applyAdd_size (w : SlidingWindow) (pt : WindowPoint) :
    (applyAddPointUnlocked w pt).size = w.size := by
  cases hs : pt.side <;>
    simp [applyAddPointUnlocked, applyAddTail_eq, hs] <;> split <;> rfl

theorem applyAdd_duration (w : SlidingWindow) (pt : WindowPoint) :
    (applyAddPointUnlocked w pt).duration = w.duration := by
  cases hs : pt.side <;>
    simp [applyAddPointUnlocked, applyAddTail_eq, hs] <;> split <;> rfl

theorem applyAdd_priceScale (w : SlidingWindow) (pt : WindowPoint) :
    (applyAddPointUnlocked w pt).priceScale = w.priceScale := by
  cases hs : pt.side <;>
    simp [applyAddPointUnlocked, applyAddTail_eq, hs] <;> split <;> rfl

theorem applyAdd_volumeScale (w : SlidingWindow) (pt : WindowPoint) :
    (applyAddPointUnlocked w pt).volumeScale = w.volumeScale := by
  cases hs : pt.side <;>
    simp [applyAddPointUnlocked, applyAddTail_eq, hs] <;> split <;> rfl

theorem applyAdd_sumVolume (w : SlidingWindow) (pt : WindowPoint) :
    (applyAddPointUnlocked w pt).sumVolume = w.sumVolume + pt.volume := by
  cases hs : pt.side <;>
    simp [applyAddPointUnlocked, applyAddTail_eq, hs] <;> split <;> rfl

theorem applyAdd_nTrades (w : SlidingWindow) (pt : WindowPoint) :
    (applyAddPointUnlocked w pt).nTrades = w.nTrades + 1 := by
  cases hs : pt.side <;>
    simp [applyAddPointUnlocked, applyAddTail_eq, hs] <;> split <;> rfl

theorem applyAdd_buyVol (w : SlidingWindow) (pt : WindowPoint) :
    (applyAddPointUnlocked w pt).buyVol
      = w.buyVol + (if pt.side = Side.buy then clampedVol pt else 0) := by
  cases hs : pt.side <;>
    simp [applyAddPointUnlocked, applyAddTail_eq, clampedVol, hs] <;> split <;> rfl

theorem applyAdd_sellVol (w : SlidingWindow) (pt : WindowPoint) :
    (applyAddPointUnlocked w pt).sellVol
      = w.sellVol + (if pt.side = Side.sell then clampedVol pt else 0) := by
  cases hs : pt.side <;>
    simp [applyAddPointUnlocked, applyAddTail_eq, clampedVol, hs] <;> split <;> rfl

theorem applyAdd_ema (w : SlidingWindow) (pt : WindowPoint) :
    (applyAddPointUnlocked w pt).ema
      = if 0 < pt.volume then w.ema.Update ((pt.volume : ℚ) / (w.volumeScale : ℚ))
        else w.ema := by
  cases hs : pt.side <;>
    simp [applyAddPointUnlocked, applyAddTail_eq, hs] <;> split <;> rfl

theorem applyRemove_buf (w : SlidingWindow) (pt : WindowPoint) :
    (applyRemovePointUnlocked w pt).buf = w.buf := by
  cases hs : pt.side <;>
    simp [applyRemovePointUnlocked, applyRemoveTail, hs] <;> split <;> rfl

theorem applyRemove_start (w : SlidingWindow) (pt : WindowPoint) :
    (applyRemovePointUnlocked w pt).start = w.start := by
  cases hs : pt.side <;>
    simp [applyRemovePointUnlocked, applyRemoveTail, hs] <;> split <;> rfl

theorem applyRemove_size (w : SlidingWindow) (pt : WindowPoint) :
    (applyRemovePointUnlocked w pt).size = w.size := by
  cases hs : pt.side <;>
    simp [applyRemovePointUnlocked, applyRemoveTail, hs] <;> split <;> rfl

theorem applyRemove_duration (w : SlidingWindow) (pt : WindowPoint) :
    (applyRemovePointUnlocked w pt).duration = w.duration := by
  cases hs : pt.side <;>
    simp [applyRemovePointUnlocked, applyRemoveTail, hs] <;> split <;> rfl

theorem applyRemove_priceScale (w : SlidingWindow) (pt : WindowPoint) :
    (applyRemovePointUnlocked w pt).priceScale = w.priceScale := by
  cases hs : pt.side <;>
    simp [applyRemovePointUnlocked, applyRemoveTail, hs] <;> split <;> rfl

theorem applyRemove_volumeScale (w : SlidingWindow) (pt : WindowPoint) :
    (applyRemovePointUnlocked w pt).volumeScale = w.volumeScale := by
  cases hs : pt.side <;>
    simp [applyRemovePointUnlocked, applyRemoveTail, hs] <;> split <;> rfl

theorem applyRemove_sumVolume (w : SlidingWindow) (pt : WindowPoint) :
    (applyRemovePointUnlocked w pt).sumVolume = w.sumVolume - pt.volume := by
  cases hs : pt.side <;>
    simp [applyRemovePointUnlocked, applyRemoveTail, hs] <;> split <;> rfl

theorem applyRemove_nTrades (w : SlidingWindow) (pt : WindowPoint) :
    (applyRemovePointUnlocked w pt).nTrades = w.nTrades - 1 := by
  cases hs : pt.side <;>
    simp [applyRemovePointUnlocked, applyRemoveTail, hs] <;> split <;> rfl

theorem applyRemove_buyVol (w : SlidingWindow) (pt : WindowPoint) :
    (applyRemovePointUnlocked w pt).buyVol
      = w.buyVol - (if pt.side = Side.buy then clampedVol pt else 0) := by
  cases hs : pt.side <;>
    simp [applyRemovePointUnlocked, applyRemoveTail, clampedVol, hs] <;> split <;> rfl

theorem applyRemove_sellVol (w : SlidingWindow) (pt : WindowPoint) :
    (applyRemovePointUnlocked w pt).sellVol
      = w.sellVol - (if pt.side = Side.sell then clampedVol pt else 0) := by
  cases hs : pt.side <;>
    simp [applyRemovePointUnlocked, applyRemoveTail, clampedVol, hs] <;> split <;> rfl

theorem applyRemove_ema (w : SlidingWindow) (pt : WindowPoint) :
    (applyRemovePointUnlocked w pt).ema = w.ema := by
  cases hs : pt.side <;>
    simp [applyRemovePointUnlocked, applyRemoveTail, hs] <;> split <;> rfl

theorem contents_length (w : SlidingWindow) : (contents w).length = w.size := by
  simp [contents]

theorem contents_congr (w w' : SlidingWindow) (hb : w'.buf = w.buf)
    (hs : w'.start = w.start) (hn : w'.size = w.size) : contents w' = contents w := by
  simp [contents, atUnlocked, hb, hs, hn]

theorem contents_applyAdd (w : SlidingWindow) (pt : WindowPoint) :
    contents (applyAddPointUnlocked w pt) = contents w :=
  contents_congr _ _ (applyAdd_buf w pt) (applyAdd_start w pt) (applyAdd_size w pt)

theorem contents_applyRemove (w : SlidingWindow) (pt : WindowPoint) :
    contents (applyRemovePointUnlocked w pt) = contents w :=
  contents_congr _ _ (applyRemove_buf w pt) (applyRemove_start w pt) (applyRemove_size w pt)

theorem contents_eq (w : SlidingWindow) :
    contents w = (List.range w.size).map
      (fun i => w.buf.getD ((w.start + i) % w.buf.length) default) := rfl

theorem contents_empty_insert (w : SlidingWindow) (pt : WindowPoint)
    (hlen : 0 < w.buf.length) :
    contents { w with buf := w.buf.set 0 pt, start := 0, size := 1 } = [pt] := by
  rw [contents_eq]
  dsimp only
  rw [List.range_succ]
  simp only [List.range_zero, List.nil_append, List.map_cons, List.map_nil,
    List.length_set, Nat.zero_add, Nat.zero_mod]
  rw [getD_set_self _ _ _ _ hlen]

theorem contents_below (w : SlidingWindow) (pt : WindowPoint)
    (hstart : w.start < w.buf.length) (hsz : w.size < w.buf.length) :
    contents { w with buf := w.buf.set ((w.start + w.size) % w.buf.length) pt,
                      size := w.size + 1 }
      = contents w ++ [pt] := by
  have hlen : 0 < w.buf.length := lt_of_le_of_lt (Nat.zero_le _) hsz
  rw [contents_eq, contents_eq]
  dsimp only
  simp only [List.length_set]
  rw [List.range_succ, List.map_append]
  congr 1
  · apply List.map_congr_left
    intro i hi
    have hi' : i < w.size := List.mem_range.mp hi
    apply getD_set_ne
    intro heq
    have : w.size = i :=
      mod_add_cancel w.start w.size i w.buf.length hsz (lt_trans hi' hsz) heq
    omega
  · simp only [List.map_cons, List.map_nil]
    rw [getD_set_self _ _ _ _ (Nat.mod_lt _ hlen)]

theorem contents_tail_shift (w : SlidingWindow) (hsz : 0 < w.size) :
    (contents w).drop 1
      = (List.range (w.size - 1)).map
          (fun i => w.buf.getD ((w.start + 1 + i) % w.buf.length) default) := by
  obtain ⟨m, hm⟩ : ∃ m, w.size = m + 1 := ⟨w.size - 1, (Nat.succ_pred_eq_of_pos hsz).symm⟩
  rw [contents_eq, hm]
  rw [List.range_succ_eq_map]
  simp only [List.map_cons, List.map_map, Nat.add_sub_cancel, List.drop_succ_cons,
    List.drop_zero]
  apply List.map_congr_left
  intro i _
  simp only [Function.comp, Nat.succ_eq_add_one]
  have h : w.start + (i + 1) = w.start + 1 + i := by omega
  rw [h]

theorem contents_head (w : SlidingWindow) (hstart : w.start < w.buf.length)
    (hsz : 0 < w.size) :
    contents w = w.buf.getD w.start default :: (contents w).drop 1 := by
  obtain ⟨m, hm⟩ : ∃ m, w.size = m + 1 := ⟨w.size - 1, (Nat.succ_pred_eq_of_pos hsz).symm⟩
  rw [contents_tail_shift w hsz]
  rw [contents_eq, hm]
  rw [List.range_succ_eq_map]
  simp only [List.map_cons, List.map_map, Nat.add_sub_cancel, Nat.add_zero,
    Nat.mod_eq_of_lt hstart]
  congr 1
  apply List.map_congr_left
  intro i _
  simp only [Function.comp, Nat.succ_eq_add_one]
  have h : w.start + (i + 1) = w.start + 1 + i := by omega
  rw [h]

theorem contents_full (w : SlidingWindow) (pt : WindowPoint)
    (hstart : w.start < w.buf.length) (hsz : w.size = w.buf.length)
    (hlen : 0 < w.buf.length) :
    contents { w with buf := w.buf.set w.start pt,
                      start := (w.start + 1) % w.buf.length }
      = (contents w).drop 1 ++ [pt] := by
  obtain ⟨m, hm⟩ : ∃ m, w.buf.length = m + 1 :=
    ⟨w.buf.length - 1, (Nat.succ_pred_eq_of_pos hlen).symm⟩
  rw [contents_tail_shift w (hsz ▸ hlen)]
  rw [contents_eq]
  dsimp only
  simp only [List.length_set, hsz, hm, Nat.add_sub_cancel]
  rw [List.range_succ, List.map_append]
  congr 1
  · apply List.map_congr_left
    intro i hi
    have hi' : i < m := List.mem_range.mp hi
    rw [Nat.mod_add_mod]
    rw [getD_set_ne]
    intro heq
    have hs' : w.start < m + 1 := hm ▸ hstart
    have h0 : (w.start + 1 + i) % (m + 1) = (w.start + (1 + i)) % (m + 1) := by
      congr 1
      omega
    have h1 : w.start = (w.start + 0) % (m + 1) := by
      rw [Nat.add_zero, Nat.mod_eq_of_lt hs']
    rw [h0] at heq
    have : 1 + i = 0 :=
      mod_add_cancel w.start (1 + i) 0 (m + 1) (by omega) (by omega)
        (by rw [← heq, ← h1])
    omega
  · simp only [List.map_cons, List.map_nil]
    rw [Nat.mod_add_mod]
    have hs' : w.start < m + 1 := hm ▸ hstart
    have hidx : (w.start + 1 + m) % (m + 1) = w.start := by
      have h2 : w.start + 1 + m = w.start + (m + 1) := by omega
      rw [h2, Nat.add_mod_right, Nat.mod_eq_of_lt hs']
    rw [hidx, getD_set_self _ _ _ _ hstart]

theorem contents_trim_step (w : SlidingWindow) (hstart : w.start < w.buf.length)
    (hsz : 0 < w.size) :
    contents { w with start := (w.start + 1) % w.buf.length, size := w.size - 1 }
      = (contents w).drop 1 := by
  rw [contents_tail_shift w hsz]
  rw [contents_eq]
  dsimp only
  apply List.map_congr_left
  intro i _
  rw [Nat.mod_add_mod]

theorem contents_size_zero (w : SlidingWindow) (h : w.size = 0) : contents w = [] := by
  simp [contents_eq, h]

theorem sumVolumeOf_append (l : List WindowPoint) (pt : WindowPoint) :
    sumVolumeOf (l ++ [pt]) = sumVolumeOf l + pt.volume := by
  simp [sumVolumeOf]

theorem sumVolumeOf_cons (pt : WindowPoint) (l : List WindowPoint) :
    sumVolumeOf (pt :: l) = pt.volume + sumVolumeOf l := by
  simp [sumVolumeOf]

theorem buyVolOf_append (l : List WindowPoint) (pt : WindowPoint) :
    buyVolOf (l ++ [pt]) = buyVolOf l + (if pt.side = Side.buy then clampedVol pt else 0) := by
  simp [buyVolOf]

theorem buyVolOf_cons (pt : WindowPoint) (l : List WindowPoint) :
    buyVolOf (pt :: l) = (if pt.side = Side.buy then clampedVol pt else 0) + buyVolOf l := by
  simp [buyVolOf]

theorem sellVolOf_append (l : List WindowPoint) (pt : WindowPoint) :
    sellVolOf (l ++ [pt]) = sellVolOf l + (if pt.side = Side.sell then clampedVol pt else 0) := by
  simp [sellVolOf]

theorem sellVolOf_cons (pt : WindowPoint) (l : List WindowPoint) :
    sellVolOf (pt :: l) = (if pt.side = Side.sell then clampedVol pt else 0) + sellVolOf l := by
  simp [sellVolOf]

theorem addLoopBody_inv (threshold : Int) (pt : WindowPoint) (w : SlidingWindow)
    (h : SInv w) (ha : AggInv w) :
    SInv (addLoopBody threshold w pt) ∧ AggInv (addLoopBody threshold w pt) := by
  obtain ⟨h1, h2, h3, h4⟩ := h
  obtain ⟨a1, a2, a3, a4⟩ := ha
  have hlen : 0 < w.buf.length := lt_of_le_of_lt (Nat.zero_le _) h1
  unfold addLoopBody
  split
  · exact ⟨⟨h1, h2, h3, h4⟩, ⟨a1, a2, a3, a4⟩⟩
  split
  · -- empty window
    rename_i hacc hsz
    have hc0 : contents w = [] := contents_size_zero w hsz
    have hcn := contents_empty_insert w pt hlen
    have hcf : contents (applyAddPointUnlocked
        { w with buf := w.buf.set 0 pt, start := 0, size := 1 } pt) = [pt] := by
      rw [contents_applyAdd]; exact hcn
    refine ⟨⟨?_, ?_, ?_, ?_⟩, ?_, ?_, ?_, ?_⟩
    · rw [applyAdd_start, applyAdd_buf]; simpa using hlen
    · rw [applyAdd_size, applyAdd_buf]; simpa using hlen
    · rw [applyAdd_priceScale]; exact h3
    · rw [applyAdd_volumeScale]; exact h4
    · rw [applyAdd_sumVolume, hcf]
      have : w.sumVolume = 0 := by rw [a1, hc0]; rfl
      simp [sumVolumeOf, this]
    · rw [applyAdd_nTrades, hcf]
      have : w.nTrades = 0 := by rw [a2, hc0]; rfl
      simp [this]
    · rw [applyAdd_buyVol, hcf]
      have : w.buyVol = 0 := by rw [a3, hc0]; rfl
      simp [buyVolOf_cons, buyVolOf, this]
    · rw [applyAdd_sellVol, hcf]
      have : w.sellVol = 0 := by rw [a4, hc0]; rfl
      simp [sellVolOf_cons, sellVolOf, this]
  split
  · -- below capacity
    rename_i hacc hsz hbelow
    have hcn := contents_below w pt h1 hbelow
    have hcf : contents (applyAddPointUnlocked
        { w with buf := w.buf.set ((w.start + w.size) % w.buf.length) pt,
                 size := w.size + 1 } pt) = contents w ++ [pt] := by
      rw [contents_applyAdd]; exact hcn
    refine ⟨⟨?_, ?_, ?_, ?_⟩, ?_, ?_, ?_, ?_⟩
    · rw [applyAdd_start, applyAdd_buf]; simpa using h1
    · rw [applyAdd_size, applyAdd_buf]; simpa using hbelow
    · rw [applyAdd_priceScale]; exact h3
    · rw [applyAdd_volumeScale]; exact h4
    · rw [applyAdd_sumVolume, hcf, sumVolumeOf_append]; dsimp only; omega
    · rw [applyAdd_nTrades, hcf]; dsimp only; simp [a2]
    · rw [applyAdd_buyVol, hcf, buyVolOf_append]; dsimp only; omega
    · rw [applyAdd_sellVol, hcf, sellVolOf_append]; dsimp only; omega
  · -- at capacity: evict the oldest, overwrite its slot
    rename_i hacc hsz hfull
    have hsize : w.size = w.buf.length := by omega
    have hpos : 0 < w.size := by omega
    set old := w.buf.getD w.start default with hold
    set wr := applyRemovePointUnlocked w old with hwr
    have hrbuf : wr.buf = w.buf := applyRemove_buf w old
    have hrstart : wr.start = w.start := applyRemove_start w old
    have hrsize : wr.size = w.size := applyRemove_size w old
    have hrc : contents wr = contents w := contents_applyRemove w old
    have hhead : contents w = old :: (contents w).drop 1 := contents_head w h1 hpos
    have hcfull : contents { wr with buf := wr.buf.set wr.start pt,
                                     start := (wr.start + 1) % wr.buf.length }
        = (contents wr).drop 1 ++ [pt] :=
      contents_full wr pt (by rw [hrstart, hrbuf]; exact h1)
        (by rw [hrsize, hrbuf]; exact hsize) (by rw [hrbuf]; exact hlen)
    have hrecord : ({ wr with buf := wr.buf.set w.start pt,
                              start := (wr.start + 1) % wr.buf.length } : SlidingWindow)
        = { wr with buf := wr.buf.set wr.start pt,
                    start := (wr.start + 1) % wr.buf.length } := by
      rw [hrstart]
    have hcf : contents (applyAddPointUnlocked
        { wr with buf := wr.buf.set w.start pt,
                  start := (wr.start + 1) % wr.buf.length } pt)
        = (contents w).drop 1 ++ [pt] := by
      rw [contents_applyAdd, hrecord, hcfull, hrc]
    refine ⟨⟨?_, ?_, ?_, ?_⟩, ?_, ?_, ?_, ?_⟩
    · rw [applyAdd_start, applyAdd_buf]
      dsimp only
      rw [List.length_set]
      exact Nat.mod_lt _ (by rw [hrbuf]; exact hlen)
    · rw [applyAdd_size, applyAdd_buf]
      dsimp only
      rw [List.length_set, hrsize, hrbuf]
      exact h2
    · rw [applyAdd_priceScale]
      dsimp only
      rw [applyRemove_priceScale]; exact h3
    · rw [applyAdd_volumeScale]
      dsimp only
      rw [applyRemove_volumeScale]; exact h4
    · rw [applyAdd_sumVolume, hcf, sumVolumeOf_append]
      dsimp only
      rw [applyRemove_sumVolume]
      have := congrArg sumVolumeOf hhead
      rw [sumVolumeOf_cons] at this
      rw [hold] at this
      omega
    · rw [applyAdd_nTrades, hcf]
      dsimp only
      rw [applyRemove_nTrades]
      have hlenc := congrArg List.length hhead
      simp only [List.length_cons] at hlenc
      simp only [List.length_append, List.length_cons, List.length_nil]
      omega
    · rw [applyAdd_buyVol, hcf, buyVolOf_append]
      dsimp only
      rw [applyRemove_buyVol]
      have := congrArg buyVolOf hhead
      rw [buyVolOf_cons] at this
      rw [hold] at this
      omega
    · rw [applyAdd_sellVol, hcf, sellVolOf_append]
      dsimp only
      rw [applyRemove_sellVol]
      have := congrArg sellVolOf hhead
      rw [sellVolOf_cons] at this
      rw [hold] at this
      omega

theorem foldl_addLoopBody_inv (threshold : Int) (pts : List WindowPoint) :
    ∀ w : SlidingWindow, SInv w → AggInv w →
      SInv (pts.foldl (addLoopBody threshold) w) ∧
        AggInv (pts.foldl (addLoopBody threshold) w) := by
  induction pts with
  | nil => intro w h ha; exact ⟨h, ha⟩
  | cons pt rest ih =>
    intro w h ha
    have step := addLoopBody_inv threshold pt w h ha
    simpa using ih (addLoopBody threshold w pt) step.1 step.2

theorem trimExpiredLoop_inv (n : Nat) (threshold : Int) :
    ∀ w : SlidingWindow, SInv w → AggInv w →
      SInv (trimExpiredLoop n threshold w) ∧ AggInv (trimExpiredLoop n threshold w) := by
  induction n with
  | zero => intro w h ha; exact ⟨h, ha⟩
  | succ n ih =>
    intro w h ha
    obtain ⟨h1, h2, h3, h4⟩ := h
    obtain ⟨a1, a2, a3, a4⟩ := ha
    have hlen : 0 < w.buf.length := lt_of_le_of_lt (Nat.zero_le _) h1
    unfold trimExpiredLoop
    split
    · exact ⟨⟨h1, h2, h3, h4⟩, ⟨a1, a2, a3, a4⟩⟩
    rename_i hszne
    dsimp only
    split
    · exact ⟨⟨h1, h2, h3, h4⟩, ⟨a1, a2, a3, a4⟩⟩
    · rename_i hts
      have hpos : 0 < w.size := Nat.pos_of_ne_zero hszne
      set head := w.buf.getD w.start default with hhd
      set wr := applyRemovePointUnlocked w head with hwr
      have hrbuf : wr.buf = w.buf := applyRemove_buf w head
      have hrstart : wr.start = w.start := applyRemove_start w head
      have hrsize : wr.size = w.size := applyRemove_size w head
      have hhead : contents w = head :: (contents w).drop 1 := contents_head w h1 hpos
      have hctrim : contents ({ wr with start := (wr.start + 1) % wr.buf.length,
                                        size := wr.size - 1 } : SlidingWindow)
          = (contents w).drop 1 := by
        have hstep := contents_trim_step wr (by rw [hrstart, hrbuf]; exact h1)
          (by rw [hrsize]; exact hpos)
        rw [hstep, contents_applyRemove]
      apply ih
      · refine ⟨?_, ?_, ?_, ?_⟩
        · dsimp only
          exact Nat.mod_lt _ (by rw [hrbuf]; exact hlen)
        · dsimp only
          rw [hrbuf, hrsize]
          omega
        · dsimp only
          rw [applyRemove_priceScale]; exact h3
        · dsimp only
          rw [applyRemove_volumeScale]; exact h4
      · refine ⟨?_, ?_, ?_, ?_⟩
        · show wr.sumVolume = _
          rw [hctrim, applyRemove_sumVolume]
          have hv := congrArg sumVolumeOf hhead
          rw [sumVolumeOf_cons] at hv
          omega
        · show wr.nTrades = _
          rw [hctrim, applyRemove_nTrades]
          have hlenc := congrArg List.length hhead
          simp only [List.length_cons] at hlenc
          omega
        · show wr.buyVol = _
          rw [hctrim, applyRemove_buyVol]
          have hv := congrArg buyVolOf hhead
          rw [buyVolOf_cons] at hv
          omega
        · show wr.sellVol = _
          rw [hctrim, applyRemove_sellVol]
          have hv := congrArg sellVolOf hhead
          rw [sellVolOf_cons] at hv
          omega

theorem trimExpired_inv (w : SlidingWindow) (threshold : Int)
    (h : SInv w) (ha : AggInv w) :
    SInv (trimExpiredUnlocked w threshold) ∧ AggInv (trimExpiredUnlocked w threshold) := by
  obtain ⟨hl, hal⟩ := trimExpiredLoop_inv w.size threshold w h ha
  unfold trimExpiredUnlocked
  dsimp only
  split
  · exact ⟨hl, hal⟩
  · exact ⟨hl, hal⟩

theorem recompute_inv (w : SlidingWindow) (h : SInv w) (ha : AggInv w) :
    SInv (recomputeHighLowIfDirtyUnlocked w) ∧
      AggInv (recomputeHighLowIfDirtyUnlocked w) := by
  unfold recomputeHighLowIfDirtyUnlocked
  split
  · exact ⟨h, ha⟩
  split
  · exact ⟨h, ha⟩
  · exact ⟨h, ha⟩

theorem refresh_inv (w : SlidingWindow) (h : SInv w) (ha : AggInv w) :
    SInv (refreshVolumeCachesUnlocked w) ∧ AggInv (refreshVolumeCachesUnlocked w) := by
  unfold refreshVolumeCachesUnlocked
  split
  · exact ⟨h, ha⟩
  dsimp only
  split
  · exact ⟨h, ha⟩
  split
  · exact ⟨h, ha⟩
  · exact ⟨h, ha⟩

theorem add_inv (w : SlidingWindow) (pts : List WindowPoint)
    (h : SInv w) (ha : AggInv w) :
    SInv (w.add pts) ∧ AggInv (w.add pts) := by
  unfold SlidingWindow.add
  split
  · exact ⟨h, ha⟩
  · dsimp only
    obtain ⟨h1, ha1⟩ := foldl_addLoopBody_inv ((pts.getLastD default).ts - w.duration) pts w h ha
    obtain ⟨h2, ha2⟩ := trimExpired_inv _ ((pts.getLastD default).ts - w.duration) h1 ha1
    obtain ⟨h3, ha3⟩ := recompute_inv _ h2 ha2
    exact refresh_inv _ h3 ha3

theorem reachable_inv (w : SlidingWindow) (h : Reachable w) : SInv w ∧ AggInv w := by
  induction h with
  | base d cap alpha ps vs hcap hps hvs =>
    constructor
    · exact ⟨by simpa [NewSlidingWindow] using hcap,
        by simp [NewSlidingWindow], hps, hvs⟩
    · refine ⟨?_, ?_, ?_, ?_⟩ <;> rfl
  | step w pts hw ih => exact add_inv w pts ih.1 ih.2

/-- C1: the claim that the cached extrema equal the true extrema for every
inserted event regardless of side fails on the code: `applyAddPointUnlocked`
returns early from the side switch for `SideUnknown`, skipping the
latest/high/low update, so after inserting a single Unknown-side event at
price 500 ticks the cached highest and lowest prices are still 0 while the
buffer's only event has price 500.  (The matching early return in
`applyRemovePointUnlocked` also skips the dirty-flag check on eviction of
an Unknown-side extremum.)  This theorem evaluates the insertion path at
the failing input. -/
theorem C1_unknown_side_extremum_bug :
    exC1.HighestPrice = 0 ∧ exC1.LowestPrice = 0 ∧
      (contents exC1).map (fun pt => pt.price) = [500] ∧ exC1.size = 1 := by
  decide

/-- C2 (counterexample): the tracked buy-side volume does not equal the raw
sum of volumes of buffered Buy events: after inserting one Buy event with
volume -3 ticks, the tracked buy volume is 0 (the fold-in clamps negative
volumes at zero) while the raw sum over the buffer is -3. -/
theorem C2_counterexample :
    exC2.buyVol = 0 ∧ rawBuyVolOf (contents exC2) = -3 ∧
      contents exC2 = [exC2pt] := by
  decide

/-- C2 (amended): in every reachable window state the incrementally
tracked aggregates equal a brute-force recomputation over the buffer's
actual contents — the tracked sum volume equals the exact tick sum of
buffered volumes, the trade count equals the number of buffered events,
and the buy-side (resp. sell-side) volume equals the sum of
`max(volume, 0)` over buffered Buy (resp. Sell) events, the clamp being
applied on both fold-in and fold-out. -/
theorem C2_aggregate_fidelity (w : SlidingWindow) (h : Reachable w) :
    w.sumVolume = sumVolumeOf (contents w) ∧
      w.nTrades = ((contents w).length : Int) ∧
      w.buyVol = buyVolOf (contents w) ∧
      w.sellVol = sellVolOf (contents w) :=
  (reachable_inv w h).2

theorem C2_witness :
    exAgg.sumVolume = sumVolumeOf (contents exAgg) ∧
      exAgg.nTrades = ((contents exAgg).length : Int) ∧
      exAgg.buyVol = buyVolOf (contents exAgg) ∧
      exAgg.sellVol = sellVolOf (contents exAgg) :=
  C2_aggregate_fidelity exAgg
    (Reachable.step _ _
      (Reachable.base 1000000000000 2 (3 / 100) 100 100 (by decide) (by decide) (by decide)))

theorem addLoopBody_at_capacity (w : SlidingWindow) (pt : WindowPoint) (threshold : Int)
    (h1 : w.start < w.buf.length) (hfull : w.size = w.buf.length)
    (hacc : threshold < pt.ts) :
    contents (addLoopBody threshold w pt) = (contents w).drop 1 ++ [pt] ∧
      (addLoopBody threshold w pt).size = w.size := by
  have hlen : 0 < w.buf.length := lt_of_le_of_lt (Nat.zero_le _) h1
  unfold addLoopBody
  rw [if_neg (not_not_intro hacc), if_neg (by omega), if_neg (by omega)]
  set old := w.buf.getD w.start default with hold
  set wr := applyRemovePointUnlocked w old with hwr
  have hrbuf : wr.buf = w.buf := applyRemove_buf w old
  have hrstart : wr.start = w.start := applyRemove_start w old
  have hrsize : wr.size = w.size := applyRemove_size w old
  have hrecord : ({ wr with buf := wr.buf.set w.start pt,
                            start := (wr.start + 1) % wr.buf.length } : SlidingWindow)
      = { wr with buf := wr.buf.set wr.start pt,
                  start := (wr.start + 1) % wr.buf.length } := by
    rw [hrstart]
  constructor
  · rw [contents_applyAdd, hrecord]
    rw [contents_full wr pt (by rw [hrstart, hrbuf]; exact h1)
      (by rw [hrsize, hrbuf]; exact hfull) (by rw [hrbuf]; exact hlen)]
    rw [contents_applyRemove]
  · rw [applyAdd_size]
    dsimp only
    exact hrsize

/-- C3: for every reachable window state the size never exceeds the
configured capacity (the fixed ring length), and once the window is at
capacity every insertion of an accepted event (one strictly inside the
time threshold) evicts exactly the oldest buffered event while inserting
the new one, leaving the size unchanged. -/
theorem C3_capacity_invariant (w : SlidingWindow) (h : Reachable w) :
    w.size ≤ w.buf.length ∧
      (∀ pt : WindowPoint, ∀ threshold : Int,
        w.size = w.buf.length → threshold < pt.ts →
          contents (addLoopBody threshold w pt) = (contents w).drop 1 ++ [pt] ∧
            (addLoopBody threshold w pt).size = w.size) := by
  obtain ⟨⟨h1, h2, h3, h4⟩, _⟩ := reachable_inv w h
  refine ⟨h2, ?_⟩
  intro pt threshold hfull hacc
  exact addLoopBody_at_capacity w pt threshold h1 hfull hacc

theorem C3_witness :
    exFull.size ≤ exFull.buf.length ∧
      contents (addLoopBody 0 exFull exFullPt)
        = (contents exFull).drop 1 ++ [exFullPt] ∧
      (addLoopBody 0 exFull exFullPt).size = exFull.size :=
  have hr : Reachable exFull :=
    Reachable.step _ _
      (Reachable.base 1000000000000 2 (3 / 100) 100 100 (by decide) (by decide) (by decide))
  have hcap : exFull.size = exFull.buf.length := by
    norm_num [exFull, NewSlidingWindow, SlidingWindow.add, addLoopBody,
      applyAddPointUnlocked, applyAddTail, applyRemovePointUnlocked, applyRemoveTail,
      trimExpiredUnlocked, trimExpiredLoop, recomputeHighLowIfDirtyUnlocked,
      refreshVolumeCachesUnlocked, atUnlocked, lastUnlocked, contents,
      EMA.Update, EMA.Get, NewEMA, ratTrunc, clampedVol]
  ⟨(C3_capacity_invariant exFull hr).1,
    ((C3_capacity_invariant exFull hr).2 exFullPt 0 hcap (by decide)).1,
    ((C3_capacity_invariant exFull hr).2 exFullPt 0 hcap (by decide)).2⟩

theorem addLoopBody_skip (threshold : Int) (pt : WindowPoint) (w : SlidingWindow)
    (h : ¬ threshold < pt.ts) : addLoopBody threshold w pt = w := by
  unfold addLoopBody
  rw [if_pos h]

theorem addLoopBody_empty (threshold : Int) (pt : WindowPoint) (w : SlidingWindow)
    (hacc : threshold < pt.ts) (hsz : w.size = 0) :
    addLoopBody threshold w pt
      = applyAddPointUnlocked { w with buf := w.buf.set 0 pt, start := 0, size := 1 } pt := by
  unfold addLoopBody
  rw [if_neg (not_not_intro hacc), if_pos hsz]

theorem addLoopBody_below (threshold : Int) (pt : WindowPoint) (w : SlidingWindow)
    (hacc : threshold < pt.ts) (hsz : ¬ w.size = 0) (hb : w.size < w.buf.length) :
    addLoopBody threshold w pt
      = applyAddPointUnlocked
          { w with buf := w.buf.set ((w.start + w.size) % w.buf.length) pt,
                   size := w.size + 1 } pt := by
  unfold addLoopBody
  rw [if_neg (not_not_intro hacc), if_neg hsz, if_pos hb]

theorem addLoopBody_shape (threshold : Int) (pt : WindowPoint) (w : SlidingWindow)
    (h : SInv w) :
    (addLoopBody threshold w pt = w ∧ ¬ threshold < pt.ts) ∨
      (∃ d : Nat, contents (addLoopBody threshold w pt) = (contents w).drop d ++ [pt] ∧
        threshold < pt.ts) := by
  obtain ⟨h1, h2, h3, h4⟩ := h
  have hlen : 0 < w.buf.length := lt_of_le_of_lt (Nat.zero_le _) h1
  by_cases hacc : threshold < pt.ts
  · right
    by_cases hsz : w.size = 0
    · refine ⟨0, ?_, hacc⟩
      rw [addLoopBody_empty threshold pt w hacc hsz, contents_applyAdd,
        contents_empty_insert w pt hlen, contents_size_zero w hsz]
      rfl
    · by_cases hb : w.size < w.buf.length
      · refine ⟨0, ?_, hacc⟩
        rw [addLoopBody_below threshold pt w hacc hsz hb, contents_applyAdd,
          contents_below w pt h1 hb]
        rfl
      · refine ⟨1, ?_, hacc⟩
        have hfull : w.size = w.buf.length := by omega
        exact (addLoopBody_at_capacity w pt threshold h1 hfull hacc).1
  · exact Or.inl ⟨addLoopBody_skip threshold pt w hacc, hacc⟩

theorem foldl_contents_shape (threshold : Int) (pts : List WindowPoint) :
    ∀ w : SlidingWindow, SInv w → AggInv w →
      ∃ k : Nat, ∃ news : List WindowPoint,
        contents (pts.foldl (addLoopBody threshold) w) = (contents w).drop k ++ news ∧
          ∀ pt ∈ news, threshold < pt.ts := by
  induction pts with
  | nil =>
    intro w h ha
    exact ⟨0, [], by simp, by simp⟩
  | cons pt rest ih =>
    intro w h ha
    obtain ⟨hs', ha'⟩ := addLoopBody_inv threshold pt w h ha
    obtain ⟨k, news, hshape, hfresh⟩ := ih (addLoopBody threshold w pt) hs' ha'
    rcases addLoopBody_shape threshold pt w h with ⟨heq, _⟩ | ⟨d, hstep, hacc⟩
    · refine ⟨k, news, ?_, hfresh⟩
      simpa [heq] using hshape
    · refine ⟨d + k, [pt].drop (k - ((contents w).drop d).length) ++ news, ?_, ?_⟩
      · simp only [List.foldl_cons] at *
        rw [hshape, hstep, List.drop_append_eq_append_drop, List.drop_drop,
          List.append_assoc]
      · intro x hx
        rcases List.mem_append.mp hx with hx1 | hx2
        · have hx1' : x ∈ [pt] := List.mem_of_mem_drop hx1
          simp at hx1'
          subst hx1'
          exact hacc
        · exact hfresh x hx2

theorem trimLoop_clears (threshold : Int) :
    ∀ n : Nat, ∀ w : SlidingWindow, SInv w → n = w.size →
      (∃ A B : List WindowPoint, contents w = A ++ B ∧
        A.Pairwise (fun a b => a.ts ≤ b.ts) ∧ ∀ x ∈ B, threshold < x.ts) →
      ∀ pt ∈ contents (trimExpiredLoop n threshold w), threshold < pt.ts := by
  intro n
  induction n with
  | zero =>
    intro w h hn hdec pt hpt
    rw [show trimExpiredLoop 0 threshold w = w from rfl,
      contents_size_zero w hn.symm] at hpt
    simp at hpt
  | succ n ih =>
    intro w h hn hdec pt hpt
    obtain ⟨h1, h2, h3, h4⟩ := h
    have hlen : 0 < w.buf.length := lt_of_le_of_lt (Nat.zero_le _) h1
    have hpos : 0 < w.size := by omega
    unfold trimExpiredLoop at hpt
    rw [if_neg (by omega)] at hpt
    dsimp only at hpt
    obtain ⟨A, B, hAB, hApw, hBf⟩ := hdec
    have hhead : contents w = w.buf.getD w.start default :: (contents w).drop 1 :=
      contents_head w h1 hpos
    by_cases hts : threshold < (w.buf.getD w.start default).ts
    · rw [if_pos hts] at hpt
      rcases A with _ | ⟨a, A'⟩
      · simp only [List.nil_append] at hAB
        rw [hAB] at hpt
        exact hBf pt hpt
      · have h0 : a :: (A' ++ B) = w.buf.getD w.start default :: (contents w).drop 1 := by
          rw [← List.cons_append, ← hAB]
          exact hhead
        have hhd : a = w.buf.getD w.start default := by
          injection h0
        rw [hAB] at hpt
        rcases List.mem_append.mp hpt with hx1 | hx2
        · rcases List.mem_cons.mp hx1 with rfl | hx1'
          · rw [hhd]; exact hts
          · have := (List.pairwise_cons.mp hApw).1 pt hx1'
            rw [hhd] at this
            omega
        · exact hBf pt hx2
    · rw [if_neg hts] at hpt
      set head := w.buf.getD w.start default with hhd
      set wr := applyRemovePointUnlocked w head with hwr
      have hrbuf : wr.buf = w.buf := applyRemove_buf w head
      have hrstart : wr.start = w.start := applyRemove_start w head
      have hrsize : wr.size = w.size := applyRemove_size w head
      have hctrim : contents ({ wr with start := (wr.start + 1) % wr.buf.length,
                                        size := wr.size - 1 } : SlidingWindow)
          = (contents w).drop 1 := by
        have hstep := contents_trim_step wr (by rw [hrstart, hrbuf]; exact h1)
          (by rw [hrsize]; exact hpos)
        rw [hstep, contents_applyRemove]
      refine ih _ ⟨?_, ?_, ?_, ?_⟩ ?_ ?_ pt hpt
      · dsimp only
        exact Nat.mod_lt _ (by rw [hrbuf]; exact hlen)
      · dsimp only
        rw [hrbuf, hrsize]
        omega
      · dsimp only
        rw [applyRemove_priceScale]; exact h3
      · dsimp only
        rw [applyRemove_volumeScale]; exact h4
      · dsimp only
        rw [hrsize]
        omega
      · rcases A with _ | ⟨a, A'⟩
        · refine ⟨[], B.drop 1, ?_, List.Pairwise.nil, ?_⟩
          · rw [hctrim, hAB]
            simp
          · intro x hx
            exact hBf x (List.mem_of_mem_drop hx)
        · refine ⟨A', B, ?_, (List.pairwise_cons.mp hApw).2, hBf⟩
          rw [hctrim, hAB]
          simp

theorem contents_trimExpired (w : SlidingWindow) (threshold : Int) :
    contents (trimExpiredUnlocked w threshold)
      = contents (trimExpiredLoop w.size threshold w) := by
  unfold trimExpiredUnlocked
  dsimp only
  split
  · rfl
  · rfl

theorem contents_recompute (w : SlidingWindow) :
    contents (recomputeHighLowIfDirtyUnlocked w) = contents w := by
  unfold recomputeHighLowIfDirtyUnlocked
  split
  · rfl
  split
  · rfl
  · rfl

theorem contents_refresh (w : SlidingWindow) :
    contents (refreshVolumeCachesUnlocked w) = contents w := by
  unfold refreshVolumeCachesUnlocked
  split
  · rfl
  dsimp only
  split
  · rfl
  split
  · rfl
  · rfl

/-- C4: after any non-empty (batch) insertion into a reachable window
whose buffered events are in non-decreasing timestamp order, with the
batch itself in non-decreasing timestamp order, every event still
retained in the window has a timestamp strictly greater than the last
batch event's timestamp minus the configured duration (the eviction
threshold is derived from the last event of the batch; capacity may
additionally have evicted events earlier than this threshold requires,
which only removes further events and cannot violate the bound on the
retained ones). -/
theorem C4_time_eviction (w : SlidingWindow) (pts : List WindowPoint)
    (h : Reachable w)
    (hw : (contents w).Pairwise (fun a b => a.ts ≤ b.ts))
    (hne : pts ≠ [])
    (hpts : pts.Pairwise (fun a b => a.ts ≤ b.ts)) :
    ∀ pt ∈ contents (w.add pts),
      (pts.getLastD default).ts - w.duration < pt.ts := by
  obtain ⟨hs, hag⟩ := reachable_inv w h
  intro pt hpt
  unfold SlidingWindow.add at hpt
  rw [if_neg (by simpa using hne)] at hpt
  dsimp only at hpt
  rw [contents_refresh, contents_recompute, contents_trimExpired] at hpt
  set threshold := (pts.getLastD default).ts - w.duration with hth
  obtain ⟨k, news, hshape, hfresh⟩ := foldl_contents_shape threshold pts w hs hag
  obtain ⟨hsf, hagf⟩ := foldl_addLoopBody_inv threshold pts w hs hag
  exact trimLoop_clears threshold _ _ hsf rfl
    ⟨(contents w).drop k, news, hshape,
      List.Pairwise.sublist (List.drop_sublist _ _) hw, hfresh⟩ pt hpt

theorem C4_witness :
    (exC4pts.getLastD default).ts - exW0.duration < exC4pt.ts :=
  C4_time_eviction exW0 exC4pts
    (Reachable.base 1000000000000 4 (3 / 100) 100 100 (by decide) (by decide) (by decide))
    (by decide) (by decide) (by decide) exC4pt
    (by norm_num [exW0, exC4pts, exC4pt, NewSlidingWindow, SlidingWindow.add, addLoopBody,
      applyAddPointUnlocked, applyAddTail, applyRemovePointUnlocked, applyRemoveTail,
      trimExpiredUnlocked, trimExpiredLoop, recomputeHighLowIfDirtyUnlocked,
      refreshVolumeCachesUnlocked, atUnlocked, lastUnlocked, contents,
      EMA.Update, EMA.Get, NewEMA, ratTrunc, clampedVol, List.range_succ])

theorem trimExpiredLoop_ema (n : Nat) (threshold : Int) :
    ∀ w : SlidingWindow, (trimExpiredLoop n threshold w).ema = w.ema := by
  induction n with
  | zero => intro w; rfl
  | succ n ih =>
    intro w
    unfold trimExpiredLoop
    split
    · rfl
    dsimp only
    split
    · rfl
    · rw [ih]
      dsimp only
      rw [applyRemove_ema]

theorem trimExpired_ema (w : SlidingWindow) (threshold : Int) :
    (trimExpiredUnlocked w threshold).ema = w.ema := by
  unfold trimExpiredUnlocked
  dsimp only
  split
  · show (trimExpiredLoop w.size threshold w).ema = w.ema
    exact trimExpiredLoop_ema w.size threshold w
  · show (trimExpiredLoop w.size threshold w).ema = w.ema
    exact trimExpiredLoop_ema w.size threshold w

/-- C8: the EMA baseline is a whole-history smoother, not a window-scoped
aggregate — fold-out (used by both capacity eviction and time-expiry
trimming) never changes the EMA state, fold-in changes it exactly when
the event's volume is strictly positive (observing the descaled volume),
and an insertion with non-positive volume still increments the trade
count and still adds its (possibly non-positive) volume to the tracked
sum volume. -/
theorem C8_ema_frame (w : SlidingWindow) (pt : WindowPoint) (threshold : Int) :
    (applyRemovePointUnlocked w pt).ema = w.ema ∧
      (trimExpiredUnlocked w threshold).ema = w.ema ∧
      (pt.volume ≤ 0 → (applyAddPointUnlocked w pt).ema = w.ema) ∧
      (0 < pt.volume →
        (applyAddPointUnlocked w pt).ema
          = w.ema.Update ((pt.volume : ℚ) / (w.volumeScale : ℚ))) ∧
      (applyAddPointUnlocked w pt).nTrades = w.nTrades + 1 ∧
      (applyAddPointUnlocked w pt).sumVolume = w.sumVolume + pt.volume := by
  refine ⟨applyRemove_ema w pt, trimExpired_ema w threshold, ?_, ?_,
    applyAdd_nTrades w pt, applyAdd_sumVolume w pt⟩
  · intro hnp
    rw [applyAdd_ema, if_neg (by omega)]
  · intro hp
    rw [applyAdd_ema, if_pos hp]

theorem C8_witness :
    (applyAddPointUnlocked exW0 exC8pt).ema = exW0.ema ∧
      (applyRemovePointUnlocked exW0 exC8pt).ema = exW0.ema ∧
      (trimExpiredUnlocked exW0 0).ema = exW0.ema ∧
      (applyAddPointUnlocked exW0 exC8pt).nTrades = exW0.nTrades + 1 :=
  ⟨(C8_ema_frame exW0 exC8pt 0).2.2.1 (by decide),
    (C8_ema_frame exW0 exC8pt 0).1,
    (C8_ema_frame exW0 exC8pt 0).2.1,
    (C8_ema_frame exW0 exC8pt 0).2.2.2.2.1⟩

theorem abs_goRound_sub_le (x : ℚ) : |(goRound x : ℚ) - x| ≤ 1 / 2 := by
  unfold goRound
  split
  · have hf1 : (⌊x + 1 / 2⌋ : ℚ) ≤ x + 1 / 2 := Int.floor_le _
    have hf2 : x + 1 / 2 < ⌊x + 1 / 2⌋ + 1 := Int.lt_floor_add_one _
    rw [abs_le]
    constructor <;> [linarith; linarith]
  · have hf1 : (⌊-x + 1 / 2⌋ : ℚ) ≤ -x + 1 / 2 := Int.floor_le _
    have hf2 : -x + 1 / 2 < ⌊-x + 1 / 2⌋ + 1 := Int.lt_floor_add_one _
    push_cast
    rw [abs_le]
    constructor <;> [linarith; linarith]

/-- C9: converting any rational value to the scaled-integer tick
representation and back reproduces the value within one tick: for every
`x` and every scale at least 1, `|Float(NewQtyLoz(x, scale), scale) - x|
≤ 1/scale` — the conversion rounds `x·scale + 1e-9` half away from zero,
so the error is at most `(1/2 + 1e-9)/scale ≤ 1/scale`. -/
theorem C9_fixed_point_roundtrip (x : ℚ) (scale : Int) (h : 1 ≤ scale) :
    |QtyLozFloat (NewQtyLoz x scale) scale - x| ≤ 1 / (scale : ℚ) := by
  have hs : (1 : ℚ) ≤ (scale : ℚ) := by exact_mod_cast h
  have hs0 : (0 : ℚ) < (scale : ℚ) := by linarith
  have hb := abs_goRound_sub_le (x * (scale : ℚ) + 1 / 1000000000)
  unfold QtyLozFloat NewQtyLoz
  have key : (goRound (x * (scale : ℚ) + 1 / 1000000000) : ℚ) / (scale : ℚ) - x
      = ((goRound (x * (scale : ℚ) + 1 / 1000000000) : ℚ)
          - (x * (scale : ℚ) + 1 / 1000000000) + 1 / 1000000000) / (scale : ℚ) := by
    field_simp
    ring
  rw [key, abs_div, abs_of_pos hs0]
  rw [div_le_div_iff_of_pos_right hs0]
  calc |(goRound (x * (scale : ℚ) + 1 / 1000000000) : ℚ)
          - (x * (scale : ℚ) + 1 / 1000000000) + 1 / 1000000000|
      ≤ |(goRound (x * (scale : ℚ) + 1 / 1000000000) : ℚ)
          - (x * (scale : ℚ) + 1 / 1000000000)| + |(1 / 1000000000 : ℚ)| :=
        abs_add _ _
    _ ≤ 1 / 2 + 1 / 1000000000 := by
        have : |(1 / 1000000000 : ℚ)| = 1 / 1000000000 := abs_of_pos (by norm_num)
        rw [this]
        linarith
    _ ≤ 1 := by norm_num

theorem C9_witness :
    |QtyLozFloat (NewQtyLoz (-(3 / 4)) 10) 10 - (-(3 / 4))| ≤ 1 / ((10 : Int) : ℚ) :=
  C9_fixed_point_roundtrip (-(3 / 4)) 10 (by norm_num)

theorem clampedVol_nonneg (pt : WindowPoint) : 0 ≤ clampedVol pt := by
  unfold clampedVol
  split <;> omega

theorem buyVolOf_nonneg (l : List WindowPoint) : 0 ≤ buyVolOf l := by
  apply List.sum_nonneg
  intro x hx
  obtain ⟨pt, _, rfl⟩ := List.mem_map.mp hx
  split
  · exact clampedVol_nonneg pt
  · exact le_refl 0

theorem sellVolOf_nonneg (l : List WindowPoint) : 0 ≤ sellVolOf l := by
  apply List.sum_nonneg
  intro x hx
  obtain ⟨pt, _, rfl⟩ := List.mem_map.mp hx
  split
  · exact clampedVol_nonneg pt
  · exact le_refl 0

/-- C10: in every reachable window state the maintained buy-side and
sell-side volume counters are non-negative (each event's contribution is
clamped at zero from below on both fold-in and fold-out), and `Imbalance`
returns a value in `[-1, 1]`: `0` when the descaled side-volume sum is
not positive, and `(buy - sell)/(buy + sell)` otherwise. -/
theorem C10_imbalance_bounds (w : SlidingWindow) (h : Reachable w) :
    0 ≤ w.buyVol ∧ 0 ≤ w.sellVol ∧ -1 ≤ Imbalance w ∧ Imbalance w ≤ 1 := by
  obtain ⟨⟨h1, h2, h3, h4⟩, ⟨a1, a2, a3, a4⟩⟩ := reachable_inv w h
  have hb : 0 ≤ w.buyVol := a3 ▸ buyVolOf_nonneg _
  have hsv : 0 ≤ w.sellVol := a4 ▸ sellVolOf_nonneg _
  have hvs : (0 : ℚ) < (w.volumeScale : ℚ) := by exact_mod_cast h4
  have hbq : (0 : ℚ) ≤ (w.buyVol : ℚ) / (w.volumeScale : ℚ) :=
    div_nonneg (by exact_mod_cast hb) (le_of_lt hvs)
  have hsq : (0 : ℚ) ≤ (w.sellVol : ℚ) / (w.volumeScale : ℚ) :=
    div_nonneg (by exact_mod_cast hsv) (le_of_lt hvs)
  refine ⟨hb, hsv, ?_, ?_⟩
  · unfold Imbalance
    dsimp only
    split
    · norm_num
    · rename_i hden
      rw [le_div_iff (not_le.mp hden)]
      linarith
  · unfold Imbalance
    dsimp only
    split
    · norm_num
    · rename_i hden
      rw [div_le_one (not_le.mp hden)]
      linarith

theorem C10_witness :
    0 ≤ exAgg.buyVol ∧ 0 ≤ exAgg.sellVol ∧
      -1 ≤ Imbalance exAgg ∧ Imbalance exAgg ≤ 1 :=
  C10_imbalance_bounds exAgg
    (Reachable.step _ _
      (Reachable.base 1000000000000 2 (3 / 100) 100 100 (by decide) (by decide) (by decide)))

theorem volumeFactor_eq (w : SlidingWindow) (hvs : 0 < w.volumeScale) :
    volumeFactor w =
      if w.ema.Initialized = true ∧ 0 < w.ema.Value ∧ 0 < w.size ∧ 0 < w.sumVolume then
        some ((((w.sumVolume : ℚ) / (w.size : ℚ)) / (w.volumeScale : ℚ)) / w.ema.Value)
      else none := by
  unfold volumeFactor EMA.Get
  by_cases hi : w.ema.Initialized = true
  · rw [if_pos hi]
    dsimp only
    split
    · rename_i hval
      rw [if_neg]
      rintro ⟨-, h2, -, -⟩
      exact absurd h2 (not_lt.mpr hval)
    split
    · rename_i hval hsz
      rw [if_neg]
      rintro ⟨-, -, h3, -⟩
      omega
    split
    · rename_i hval hsz hsum
      rw [if_neg]
      rintro ⟨-, -, -, h4⟩
      omega
    · rename_i hval hsz hsum
      have hq1 : (0 : ℚ) < (w.sumVolume : ℚ) := by
        have : 0 < w.sumVolume := lt_of_not_le hsum
        exact_mod_cast this
      have hq2 : (0 : ℚ) < (w.size : ℚ) := by
        have : 0 < w.size := Nat.pos_of_ne_zero hsz
        exact_mod_cast this
      have hq3 : (0 : ℚ) < (w.volumeScale : ℚ) := by exact_mod_cast hvs
      have hca : 0 < ((w.sumVolume : ℚ) / (w.size : ℚ)) / (w.volumeScale : ℚ) :=
        div_pos (div_pos hq1 hq2) hq3
      have hvalpos : 0 < w.ema.Value := lt_of_not_le hval
      rw [if_neg (not_le.mpr hca), if_neg (not_le.mpr (div_pos hca hvalpos)),
        if_pos ⟨hi, hvalpos, Nat.pos_of_ne_zero hsz, lt_of_not_le hsum⟩]
  · rw [if_neg hi]
    dsimp only
    rw [if_neg]
    rintro ⟨h1, -⟩
    exact hi h1

theorem structuralReturn_eq (w : SlidingWindow) (hlen : 0 < w.buf.length) :
    structuralReturn w =
      if 0 < w.size ∧ (atUnlocked w 0).price ≠ 0 then
        some ((QtyLozFloat (lastUnlocked w).price w.priceScale -
          QtyLozFloat (atUnlocked w 0).price w.priceScale) /
          QtyLozFloat (atUnlocked w 0).price w.priceScale)
      else none := by
  unfold structuralReturn
  split
  · rename_i h0
    rw [if_neg]
    rintro ⟨h1, -⟩
    rcases h0 with h | h <;> omega
  · rename_i h0
    push_neg at h0
    dsimp only
    split
    · rename_i hp
      rw [if_neg]
      rintro ⟨-, h2⟩
      exact h2 hp
    · rename_i hp
      rw [if_pos ⟨Nat.pos_of_ne_zero h0.1, hp⟩]

/-- C5 (amended): `Momentum` returns
`(price_return × log1p(volume_factor), ok = true)` exactly when the
window is non-empty (one point suffices, not two), the oldest tick price
is non-zero (not necessarily positive), the EMA baseline is initialized
and positive, and the window's summed tick volume is positive; the
volume factor is the average tick volume per point, descaled, divided by
the EMA baseline, and the price return spans oldest to newest. -/
theorem C5_momentum_characterization (log1p : ℚ → ℚ) (w : SlidingWindow)
    (hvs : 0 < w.volumeScale) (hlen : 0 < w.buf.length) :
    ((Momentum log1p w).2 = true ↔
      (0 < w.size ∧ (atUnlocked w 0).price ≠ 0 ∧ w.ema.Initialized = true ∧
        0 < w.ema.Value ∧ 0 < w.sumVolume)) ∧
    ((0 < w.size ∧ (atUnlocked w 0).price ≠ 0 ∧ w.ema.Initialized = true ∧
        0 < w.ema.Value ∧ 0 < w.sumVolume) →
      Momentum log1p w =
        (((QtyLozFloat (lastUnlocked w).price w.priceScale -
            QtyLozFloat (atUnlocked w 0).price w.priceScale) /
            QtyLozFloat (atUnlocked w 0).price w.priceScale) *
          log1p ((((w.sumVolume : ℚ) / (w.size : ℚ)) / (w.volumeScale : ℚ)) / w.ema.Value),
          true)) := by
  unfold Momentum
  rw [volumeFactor_eq w hvs, structuralReturn_eq w hlen]
  constructor
  · by_cases hA : (w.ema.Initialized = true ∧ 0 < w.ema.Value ∧ 0 < w.size ∧ 0 < w.sumVolume)
    · by_cases hB : (0 < w.size ∧ (atUnlocked w 0).price ≠ 0)
      · rw [if_pos hA, if_pos hB]
        constructor
        · intro _
          exact ⟨hB.1, hB.2, hA.1, hA.2.1, hA.2.2.2⟩
        · intro _
          rfl
      · rw [if_pos hA, if_neg hB]
        constructor
        · intro hok
          simp at hok
        · rintro ⟨hs1, hs2, -⟩
          exact absurd ⟨hs1, hs2⟩ hB
    · rw [if_neg hA]
      constructor
      · intro hok
        simp at hok
      · rintro ⟨hs1, hs2, hs3, hs4, hs5⟩
        exact absurd ⟨hs3, hs4, hs1, hs5⟩ hA
  · intro hc
    rw [if_pos ⟨hc.2.2.1, hc.2.2.2.1, hc.1, hc.2.2.2.2⟩, if_pos ⟨hc.1, hc.2.1⟩]

/-- C5 (counterexample): `Momentum` reports ok on a single-point window —
the claim says it requires at least 2 points, but `structuralReturn` only
requires a non-empty window, so a one-point window with positive volume
(EMA seeded) and non-zero price yields `ok = true` (with return 0). -/
theorem C5_counterexample :
    (Momentum (fun x => x) exC5).2 = true ∧ exC5.size = 1 := by
  norm_num [Momentum, volumeFactor, structuralReturn, EMA.Get, EMA.Update, QtyLozFloat,
    exC5, exW0, NewSlidingWindow, SlidingWindow.add, addLoopBody,
    applyAddPointUnlocked, applyAddTail, applyRemovePointUnlocked, applyRemoveTail,
    trimExpiredUnlocked, trimExpiredLoop, recomputeHighLowIfDirtyUnlocked,
    refreshVolumeCachesUnlocked, atUnlocked, lastUnlocked, contents,
    NewEMA, ratTrunc, clampedVol]

theorem C5_witness :
    (Momentum (fun x => x) exC5).2 = true :=
  (C5_momentum_characterization (fun x => x) exC5
    (by norm_num [exC5, exW0, NewSlidingWindow, SlidingWindow.add, addLoopBody,
      applyAddPointUnlocked, applyAddTail, applyRemovePointUnlocked, applyRemoveTail,
      trimExpiredUnlocked, trimExpiredLoop, recomputeHighLowIfDirtyUnlocked,
      refreshVolumeCachesUnlocked, atUnlocked, lastUnlocked, contents,
      EMA.Update, EMA.Get, NewEMA, ratTrunc, clampedVol])
    (by norm_num [exC5, exW0, NewSlidingWindow, SlidingWindow.add, addLoopBody,
      applyAddPointUnlocked, applyAddTail, applyRemovePointUnlocked, applyRemoveTail,
      trimExpiredUnlocked, trimExpiredLoop, recomputeHighLowIfDirtyUnlocked,
      refreshVolumeCachesUnlocked, atUnlocked, lastUnlocked, contents,
      EMA.Update, EMA.Get, NewEMA, ratTrunc, clampedVol])).1.mpr
    (by norm_num [exC5, exW0, NewSlidingWindow, SlidingWindow.add, addLoopBody,
      applyAddPointUnlocked, applyAddTail, applyRemovePointUnlocked, applyRemoveTail,
      trimExpiredUnlocked, trimExpiredLoop, recomputeHighLowIfDirtyUnlocked,
      refreshVolumeCachesUnlocked, atUnlocked, lastUnlocked, contents,
      EMA.Update, EMA.Get, NewEMA, ratTrunc, clampedVol])

theorem rvLoop_eq (log : ℚ → ℚ) :
    ∀ (rest : List ℚ) (prev acc : ℚ),
      rvLoop log rest prev acc = acc + specSumsq log (prev :: rest) := by
  intro rest
  induction rest with
  | nil =>
    intro prev acc
    simp [rvLoop, specSumsq]
  | cons cur rest ih =>
    intro prev acc
    unfold rvLoop
    split
    · rename_i hc
      rw [ih cur acc]
      simp [specSumsq, not_lt.mpr hc]
    · rename_i hc
      rw [ih cur (acc + log (cur / prev) * log (cur / prev))]
      simp [specSumsq, lt_of_not_le hc]
      ring

theorem contents_head0 (w : SlidingWindow) (h : 0 < w.size) :
    contents w = atUnlocked w 0 :: (contents w).drop 1 := by
  obtain ⟨m, hm⟩ : ∃ m, w.size = m + 1 := ⟨w.size - 1, (Nat.succ_pred_eq_of_pos h).symm⟩
  conv_lhs => rw [contents, hm, List.range_succ_eq_map]
  conv_rhs => rw [contents, hm, List.range_succ_eq_map]
  simp [List.map_cons]

theorem floatPrices_head (w : SlidingWindow) (h : 0 < w.size) :
    floatPrices w
      = QtyLozFloat (atUnlocked w 0).price w.priceScale :: (floatPrices w).drop 1 := by
  unfold floatPrices
  conv_lhs => rw [contents_head0 w h]
  conv_rhs => rw [contents_head0 w h]
  simp [List.map_cons]

/-- C6 (amended): `RealizedVol` reports ok exactly when the window has at
least 2 points AND the oldest (descaled) price is positive (a
non-positive oldest price is rejected outright, not skipped); when ok,
the value is the square root of the sum over consecutive price pairs of
`log(cur/prev)²`, where a term is contributed only when the current
price is positive but the reference `prev` is always the immediately
preceding snapshot price — a skipped non-positive price replaces the
reference rather than carrying the previous positive price forward. -/
theorem C6_realizedvol_characterization (log sqrt : ℚ → ℚ) (w : SlidingWindow) :
    ((RealizedVol log sqrt w).2 = true ↔
      (2 ≤ w.size ∧ 0 < QtyLozFloat (atUnlocked w 0).price w.priceScale)) ∧
    ((2 ≤ w.size ∧ 0 < QtyLozFloat (atUnlocked w 0).price w.priceScale) →
      RealizedVol log sqrt w = (sqrt (specSumsq log (floatPrices w)), true)) := by
  constructor
  · unfold RealizedVol
    split
    · rename_i hsz
      constructor
      · intro hok
        simp at hok
      · rintro ⟨h1, -⟩
        omega
    · rename_i hsz
      dsimp only
      split
      · rename_i hp
        constructor
        · intro hok
          simp at hok
        · rintro ⟨-, h2⟩
          exact absurd h2 (not_lt.mpr hp)
      · rename_i hp
        constructor
        · intro _
          exact ⟨by omega, lt_of_not_le hp⟩
        · intro _
          rfl
  · rintro ⟨h1, h2⟩
    unfold RealizedVol
    rw [if_neg (by omega), if_neg (not_le.mpr h2)]
    have hhd := floatPrices_head w (by omega)
    have hrv := rvLoop_eq log ((floatPrices w).drop 1)
      (QtyLozFloat (atUnlocked w 0).price w.priceScale) 0
    rw [hrv, zero_add, ← hhd]

/-- C6 (counterexample): a window with 2 points whose oldest price is 0
makes `RealizedVol` report not-ok — the claim says every window with at
least 2 points is ok, with non-positive prices merely skipped, but the
code rejects a non-positive oldest price outright. -/
theorem C6_counterexample :
    (RealizedVol (fun x => x) (fun x => x) exC6).2 = false ∧ exC6.size = 2 := by
  norm_num [RealizedVol, QtyLozFloat, floatPrices, rvLoop,
    exC6, exW0, NewSlidingWindow, SlidingWindow.add, addLoopBody,
    applyAddPointUnlocked, applyAddTail, applyRemovePointUnlocked, applyRemoveTail,
    trimExpiredUnlocked, trimExpiredLoop, recomputeHighLowIfDirtyUnlocked,
    refreshVolumeCachesUnlocked, atUnlocked, lastUnlocked, contents,
    EMA.Update, EMA.Get, NewEMA, ratTrunc, clampedVol, List.range_succ]

theorem C6_witness :
    (RealizedVol (fun x => x) (fun x => x) exC6b).2 = true :=
  (C6_realizedvol_characterization (fun x => x) (fun x => x) exC6b).1.mpr
    (by norm_num [QtyLozFloat, exC6b, exW0, NewSlidingWindow, SlidingWindow.add,
      addLoopBody, applyAddPointUnlocked, applyAddTail, applyRemovePointUnlocked,
      applyRemoveTail, trimExpiredUnlocked, trimExpiredLoop,
      recomputeHighLowIfDirtyUnlocked, refreshVolumeCachesUnlocked, atUnlocked,
      lastUnlocked, contents, EMA.Update, EMA.Get, NewEMA, ratTrunc, clampedVol,
      List.range_succ])

/-- C7 (amended): the full-snapshot read returns nil (`none`) exactly
when the window has fewer than 2 points — including the empty and
single-point windows — rather than a record populated with
degenerate/zero values; with 2 or more points it always returns a
populated record. -/
theorem C7_snapshot_characterization (log sqrt : ℚ → ℚ) (now : Int) (w : SlidingWindow) :
    (Snapshot log sqrt now w = none ↔ w.size < 2) ∧
      (2 ≤ w.size → (Snapshot log sqrt now w).isSome = true) := by
  constructor
  · unfold Snapshot collectStats
    by_cases hsz : w.size < 2
    · rw [if_pos hsz]
      dsimp only
      exact ⟨fun _ => hsz, fun _ => rfl⟩
    · rw [if_neg hsz]
      dsimp only
      constructor
      · intro hnone
        simp at hnone
      · intro h2
        omega
  · intro h2
    unfold Snapshot collectStats
    rw [if_neg (by omega)]
    rfl

/-- C7 (counterexample): on an empty window and on a single-point window
the snapshot read returns nil, not a degenerate populated record. -/
theorem C7_counterexample :
    Snapshot (fun x => x) (fun x => x) 0 exW0 = none ∧
      Snapshot (fun x => x) (fun x => x) 0 exC5 = none ∧ exC5.size = 1 := by
  refine ⟨rfl, ?_, ?_⟩ <;>
    norm_num [Snapshot, collectStats, exC5, exW0, NewSlidingWindow, SlidingWindow.add,
      addLoopBody, applyAddPointUnlocked, applyAddTail, applyRemovePointUnlocked,
      applyRemoveTail, trimExpiredUnlocked, trimExpiredLoop,
      recomputeHighLowIfDirtyUnlocked, refreshVolumeCachesUnlocked, atUnlocked,
      lastUnlocked, contents, EMA.Update, EMA.Get, NewEMA, ratTrunc, clampedVol]

theorem C7_witness :
    (Snapshot (fun x => x) (fun x => x) 0 exC6b).isSome = true :=
  (C7_snapshot_characterization (fun x => x) (fun x => x) 0 exC6b).2
    (by norm_num [exC6b, exW0, NewSlidingWindow, SlidingWindow.add, addLoopBody,
      applyAddPointUnlocked, applyAddTail, applyRemovePointUnlocked, applyRemoveTail,
      trimExpiredUnlocked, trimExpiredLoop, recomputeHighLowIfDirtyUnlocked,
      refreshVolumeCachesUnlocked, atUnlocked, lastUnlocked, contents,
      EMA.Update, EMA.Get, NewEMA, ratTrunc, clampedVol, List.range_succ])
